import Mathlib

/-!
Shallow embedding of the fitness/meal-logging web application (src/app.py)
and verification of the specified properties of its aggregation pipeline
and CRUD handlers.

Conventions of the embedding:
* Timestamps are natural numbers: whole seconds since the epoch, UTC.
* Python strings are Lean `String`s; a form field that may be missing is an
  `Option String` (`none` = the field was absent from the form, mirroring
  `request.form.get` returning `None`).
* `datetime.date()` extraction is day-number arithmetic: the calendar date of
  a timestamp `t` is `t / 86400`; converting to the Asia/Yerevan zone adds the
  fixed offset `14400` seconds (UTC+4, no daylight saving since 2012) to the
  timestamp before the date is taken.
* The database session is a `Store` value; handlers are pure functions
  `... → Store → HResult` returning the new store, whether `commit` was
  called, and the HTTP response shape (redirect to index / rendered page).
-/

namespace FitnessApp

/-- Python truthiness of an optional string: `None` and `""` are falsy. -/
def pyTruthy : Option String → Bool
  | none => false
  | some s => !(s == "")

/-- Python `str.isdigit`: true iff the string is non-empty and every
character is a decimal digit. -/
def pyIsdigit (s : String) : Bool :=
  !(s == "") && s.data.all Char.isDigit

/-- Numeric value of a decimal digit string, as Python `int` computes it. -/
def strToNat (s : String) : Nat :=
  s.data.foldl (fun a c => a * 10 + (c.toNat - 48)) 0

/-- Python `int(s)` restricted to the digit strings the app feeds it. -/
def pyInt (s : String) : Int :=
  (strToNat s : Int)

/-- Python `int(s)` as a fallible operation: raises `ValueError` (modelled as
`Except.error`) on a string that is not a plain digit string. -/
def pyIntE (s : String) : Except String Int :=
  if pyIsdigit s then Except.ok (strToNat s) else Except.error "ValueError"

/-- Lexicographic comparison of character lists by code point, as Python
compares strings. -/
def lexLe : List Char → List Char → Bool
  | [], _ => true
  | _ :: _, [] => false
  | a :: as, b :: bs => (a.toNat < b.toNat) || ((a.toNat == b.toNat) && lexLe as bs)

/-- Python string `<=` (code-point lexicographic). -/
def strLe (a b : String) : Bool := lexLe a.data b.data

/-- Comparison on dictionary keys as the summary sort uses them.  The keys
are optional strings in the embedding; real names compare as Python strings
(an absent name is ordered first, a case Python itself cannot order). -/
def optStrLe : Option String → Option String → Bool
  | none, _ => true
  | some _, none => false
  | some a, some b => strLe a b

/-- Day number (calendar date) of a timestamp in seconds. -/
def date_of (t : Nat) : Nat := t / 86400

/-- Fixed UTC offset of the configured `Asia/Yerevan` zone, in seconds. -/
def YEREVAN_OFFSET : Nat := 14400

/-- Python `date.today()`: current calendar date in a zone at offset `off`
when the current instant is `now`. -/
def date_today (now off : Nat) : Nat := date_of (now + off)

/-- The helper `format_timedelta` from src/app.py: formats a duration in whole seconds
as `"{days}d {hours}h {minutes}m"` when `days > 0`, else
`"{hours}h {minutes}m"`, using Python `divmod` (floor division). -/
def format_timedelta (total_seconds : Int) : String :=
  let days := total_seconds / 86400
  let r1 := total_seconds % 86400
  let hours := r1 / 3600
  let r2 := r1 % 3600
  let minutes := r2 / 60
  if 0 < days then
    s!"{days}d {hours}h {minutes}m"
  else
    s!"{hours}h {minutes}m"

/-- Row of the `Workout` table.  `exercise_name` is an `Option` because the
update handler stores the raw form value, which may be absent. -/
structure Workout where
  id : Nat
  exercise_name : Option String
  reps : Int
  timestamp : Nat
deriving DecidableEq

/-- Row of the `Meal` table. -/
structure Meal where
  id : Nat
  name : Option String
  component1 : Option String
  component2 : Option String
  component3 : Option String
  component4 : Option String
  component5 : Option String
  calories : Option Int
  timestamp : Nat
deriving DecidableEq

/-- The database: both tables plus the autoincrement counters that assign
primary keys at insertion. -/
structure Store where
  workouts : List Workout
  meals : List Meal
  nextWorkoutId : Nat
  nextMealId : Nat
deriving DecidableEq

def emptyStore : Store := ⟨[], [], 1, 1⟩

/-- The workout form as submitted: `request.form.get` of each field. -/
structure WorkoutForm where
  exercise_name : Option String
  reps : Option String
deriving DecidableEq

/-- The meal form as submitted. -/
structure MealForm where
  meal_name : Option String
  component1 : Option String
  component2 : Option String
  component3 : Option String
  component4 : Option String
  component5 : Option String
  calories : Option String
deriving DecidableEq

/-- Shape of an HTTP response from a handler. -/
inductive Resp where
  | redirectIndex
  | renderPage
deriving DecidableEq

/-- Result of running a handler: the store afterwards, whether
`db.session.commit()` was called, and the response. -/
structure HResult where
  store : Store
  committed : Bool
  resp : Resp
deriving DecidableEq

/-- Lookup `db.session.get(Workout, wid)`: primary-key lookup. -/
def getWorkout (st : Store) (wid : Nat) : Option Workout :=
  st.workouts.find? (fun w => w.id == wid)

/-- Lookup `db.session.get(Meal, mid)`: primary-key lookup. -/
def getMeal (st : Store) (mid : Nat) : Option Meal :=
  st.meals.find? (fun m => m.id == mid)

/-- The `add_workout` route: insert only when the name is truthy and the reps
field is a truthy digit string; always redirect to the index. -/
def add_workout (f : WorkoutForm) (now : Nat) (st : Store) : HResult :=
  match f.reps with
  | some reps_str =>
    if pyTruthy f.exercise_name && pyIsdigit reps_str then
      { store := { st with
          workouts := st.workouts ++
            [⟨st.nextWorkoutId, f.exercise_name, pyInt reps_str, now⟩],
          nextWorkoutId := st.nextWorkoutId + 1 },
        committed := true, resp := .redirectIndex }
    else
      { store := st, committed := false, resp := .redirectIndex }
  | none => { store := st, committed := false, resp := .redirectIndex }

/-- Variant of `add_workout` with the fallibility of `int()` made explicit:
`Except.error` marks an uncaught Python exception escaping the handler. -/
def add_workoutE (f : WorkoutForm) (now : Nat) (st : Store) :
    Except String HResult :=
  match f.reps with
  | some reps_str =>
    if pyTruthy f.exercise_name && pyIsdigit reps_str then do
      let r ← pyIntE reps_str
      Except.ok
        { store := { st with
            workouts := st.workouts ++
              [⟨st.nextWorkoutId, f.exercise_name, r, now⟩],
            nextWorkoutId := st.nextWorkoutId + 1 },
          committed := true, resp := .redirectIndex }
    else
      Except.ok { store := st, committed := false, resp := .redirectIndex }
  | none => Except.ok { store := st, committed := false, resp := .redirectIndex }

/-- Field updates `update_workout` applies to the found row: the name is
overwritten with the raw form value unconditionally; reps only when the
submitted string is a truthy digit string. -/
def applyWorkoutForm (f : WorkoutForm) (w : Workout) : Workout :=
  let w1 := { w with exercise_name := f.exercise_name }
  match f.reps with
  | some reps_str => if pyIsdigit reps_str then { w1 with reps := pyInt reps_str } else w1
  | none => w1

/-- The `update_workout` route. -/
def update_workout (wid : Nat) (f : WorkoutForm) (st : Store) : HResult :=
  match getWorkout st wid with
  | none => { store := st, committed := false, resp := .redirectIndex }
  | some _ =>
    { store := { st with
        workouts := st.workouts.map (fun w => if w.id == wid then applyWorkoutForm f w else w) },
      committed := true, resp := .redirectIndex }

/-- The `delete_workout` route. -/
def delete_workout (wid : Nat) (st : Store) : HResult :=
  match getWorkout st wid with
  | none => { store := st, committed := false, resp := .redirectIndex }
  | some _ =>
    { store := { st with workouts := st.workouts.filter (fun w => !(w.id == wid)) },
      committed := true, resp := .redirectIndex }

/-- The `edit_workout` route: renders the form when found, else redirects. -/
def edit_workout (wid : Nat) (st : Store) : HResult :=
  match getWorkout st wid with
  | none => { store := st, committed := false, resp := .redirectIndex }
  | some _ => { store := st, committed := false, resp := .renderPage }

/-- Python `int(calories) if calories and calories.isdigit() else None`. -/
def parseCalories (c : Option String) : Option Int :=
  match c with
  | some s => if pyIsdigit s then some (pyInt s) else none
  | none => none

/-- The `add_meal` route. -/
def add_meal (f : MealForm) (now : Nat) (st : Store) : HResult :=
  if pyTruthy f.meal_name then
    { store := { st with
        meals := st.meals ++
          [⟨st.nextMealId, f.meal_name, f.component1, f.component2, f.component3,
            f.component4, f.component5, parseCalories f.calories, now⟩],
        nextMealId := st.nextMealId + 1 },
      committed := true, resp := .redirectIndex }
  else
    { store := st, committed := false, resp := .redirectIndex }

/-- Field updates `update_meal` applies to the found row: every field is
overwritten with the raw form value; calories via the digit-string parse. -/
def applyMealForm (f : MealForm) (m : Meal) : Meal :=
  { m with
    name := f.meal_name
    component1 := f.component1
    component2 := f.component2
    component3 := f.component3
    component4 := f.component4
    component5 := f.component5
    calories := parseCalories f.calories }

/-- The `update_meal` route. -/
def update_meal (mid : Nat) (f : MealForm) (st : Store) : HResult :=
  match getMeal st mid with
  | none => { store := st, committed := false, resp := .redirectIndex }
  | some _ =>
    { store := { st with
        meals := st.meals.map (fun m => if m.id == mid then applyMealForm f m else m) },
      committed := true, resp := .redirectIndex }

/-- The `delete_meal` route. -/
def delete_meal (mid : Nat) (st : Store) : HResult :=
  match getMeal st mid with
  | none => { store := st, committed := false, resp := .redirectIndex }
  | some _ =>
    { store := { st with meals := st.meals.filter (fun m => !(m.id == mid)) },
      committed := true, resp := .redirectIndex }

/-- The `edit_meal` route. -/
def edit_meal (mid : Nat) (st : Store) : HResult :=
  match getMeal st mid with
  | none => { store := st, committed := false, resp := .redirectIndex }
  | some _ => { store := st, committed := false, resp := .renderPage }

/-- One mutating request against the store. -/
inductive Op where
  | addW (f : WorkoutForm) (now : Nat)
  | updW (wid : Nat) (f : WorkoutForm)
  | delW (wid : Nat)
  | addM (f : MealForm) (now : Nat)
  | updM (mid : Nat) (f : MealForm)
  | delM (mid : Nat)

/-- Effect of one request on the store. -/
def applyOp (st : Store) : Op → Store
  | .addW f now => (add_workout f now st).store
  | .updW wid f => (update_workout wid f st).store
  | .delW wid => (delete_workout wid st).store
  | .addM f now => (add_meal f now st).store
  | .updM mid f => (update_meal mid f st).store
  | .delM mid => (delete_meal mid st).store

/-- Run a sequence of requests from a starting store. -/
def runOps (st : Store) (ops : List Op) : Store :=
  ops.foldl applyOp st

/-- Timezone conversion of a workout row for display:
`timestamp.replace(tzinfo=utc).astimezone(YEREVAN_TZ)` does not move the
instant, it re-expresses it; extracting wall-clock fields afterwards sees the
timestamp shifted by the fixed offset. -/
def convertWorkout (w : Workout) : Workout :=
  { w with timestamp := w.timestamp + YEREVAN_OFFSET }

/-- Same conversion for a meal row. -/
def convertMeal (m : Meal) : Meal :=
  { m with timestamp := m.timestamp + YEREVAN_OFFSET }

/-- The index route's today filter: convert every workout to Yerevan time,
then keep those whose (converted) calendar date equals `today`, the value of
`date.today()` on the server.  `ws` is the query result list. -/
def todays_workouts (ws : List Workout) (today : Nat) : List Workout :=
  (ws.map convertWorkout).filter (fun w => date_of w.timestamp == today)

/-- Python `workout_summary[name] += reps` on a `defaultdict(int)`: bump the entry
for `k` in an insertion-ordered association list, appending a fresh entry
when `k` is new.  This is exactly the Python 3.7+ dict behaviour. -/
def bump : List (Option String × Int) → Option String → Int → List (Option String × Int)
  | [], k, v => [(k, v)]
  | (k0, v0) :: rest, k, v =>
    if k0 == k then (k0, v0 + v) :: rest else (k0, v0) :: bump rest k v

/-- The accumulated per-exercise totals, in key-insertion order, for a list
of (today's) workouts scanned in order. -/
def workout_summary (ws : List Workout) : List (Option String × Int) :=
  ws.foldl (fun acc w => bump acc w.exercise_name w.reps) []

/-- Ordering used by `sorted(workout_summary.items(), key=item[0])`. -/
def summLe (p q : Option String × Int) : Prop :=
  optStrLe p.1 q.1 = true

instance : DecidableRel summLe := fun p q =>
  inferInstanceAs (Decidable (optStrLe p.1 q.1 = true))

/-- The list `sorted_workout_summary`: the summary pairs sorted by exercise name. -/
def sorted_workout_summary (ws : List Workout) : List (Option String × Int) :=
  List.insertionSort summLe (workout_summary ws)

/-- Python `chart_labels = list(workout_summary.keys())`. -/
def chart_labels (ws : List Workout) : List (Option String) :=
  (workout_summary ws).map Prod.fst

/-- Python `chart_data = list(workout_summary.values())`. -/
def chart_data (ws : List Workout) : List Int :=
  (workout_summary ws).map Prod.snd

/-- Reference total: sum of the reps of the entries for one exercise. -/
def totalFor (ws : List Workout) (k : Option String) : Int :=
  ((ws.filter (fun w => w.exercise_name == k)).map (fun w => w.reps)).sum

/-- The distinct elements of a list in first-occurrence order. -/
def firstOccurrences (l : List (Option String)) : List (Option String) :=
  l.foldl (fun acc a => if a ∈ acc then acc else acc ++ [a]) []

/-- The fasting-annotation loop over the ascending meal list: `prev` is the
timestamp of the previous meal (`none` at index 0); each meal is paired with
`format_timedelta` of its gap to the previous one, or `none` for the first. -/
def annotateAsc (prev : Option Nat) : List Meal → List (Meal × Option String)
  | [] => []
  | m :: rest =>
    (m, prev.map (fun p => format_timedelta ((m.timestamp : Int) - (p : Int)))) ::
      annotateAsc (some m.timestamp) rest

/-- The view `meals_with_fasting_time`: annotate the ascending list, then reverse so
the most recent meal comes first. -/
def meals_with_fasting_time (ms : List Meal) : List (Meal × Option String) :=
  (annotateAsc none ms).reverse

/-- The index route's meal section: convert every meal to Yerevan time
before computing differences, then annotate and reverse.  `ms` is the
ascending-by-timestamp query result. -/
def meals_view (ms : List Meal) : List (Meal × Option String) :=
  meals_with_fasting_time (ms.map convertMeal)

/-- Dictionary read-back on the association list: value of the first entry
whose key matches. -/
def lookupKey (acc : List (Option String × Int)) (k : Option String) : Option Int :=
  (acc.find? (fun p => p.1 == k)).map Prod.snd

/-- The numeric invariants that every reachable store actually maintains:
workout reps and present meal calories are non-negative. -/
def StoreNonneg (st : Store) : Prop :=
  (∀ w ∈ st.workouts, 0 ≤ w.reps) ∧
  (∀ m ∈ st.meals, ∀ c, m.calories = some c → 0 ≤ c)

/-- Concrete meals used to exercise the theorems: 08:00, then 14h 32m 29s
later, then 18h 43m later (the worked example of the specification). -/
def demoMealA : Meal := ⟨1, some "oats", none, none, none, none, none, some 300, 100⟩

def demoMealB : Meal := ⟨2, some "lunch", none, none, none, none, none, none, 100 + 52349⟩

def demoMealC : Meal := ⟨3, some "dinner", some "soup", none, none, none, none, none, 100 + 52349 + 67380⟩

def demoMeals : List Meal := [demoMealA, demoMealB, demoMealC]

/-- A concrete store with one workout and one meal, counters past them. -/
def demoStore : Store :=
  ⟨[⟨1, some "Squat", 10, 5⟩],
   [⟨1, some "oats", none, none, none, none, none, some 300, 7⟩], 2, 2⟩

/-- A meal form with every field absent. -/
def noMealForm : MealForm := ⟨none, none, none, none, none, none, none⟩

/-- Concrete today-dated workouts (the worked example of the spec). -/
def demoWorkouts : List Workout :=
  [⟨1, some "Squat", 10, 0⟩, ⟨2, some "Row", 48, 0⟩, ⟨3, some "Squat", 64, 0⟩]

/-- A workout logged at 20:30 UTC on epoch day 0 (00:30 of day 1 in
Yerevan). -/
def demoFilterW : Workout := ⟨1, some "Squat", 10, 73800⟩

/-- A fully populated valid meal form. -/
def demoMealForm : MealForm :=
  ⟨some "oats", some "milk", none, none, none, none, some "300"⟩

end FitnessApp

namespace FitnessApp

/-! ## Helper lemmas about the fasting-annotation loop -/

theorem annotateAsc_length (prev : Option Nat) (ms : List Meal) :
    (annotateAsc prev ms).length = ms.length := by
  induction ms generalizing prev with
  | nil => rfl
  | cons m rest ih => simp [annotateAsc, ih]

theorem annotateAsc_map_fst (prev : Option Nat) (ms : List Meal) :
    (annotateAsc prev ms).map Prod.fst = ms := by
  induction ms generalizing prev with
  | nil => rfl
  | cons m rest ih => simp [annotateAsc, ih]

theorem annotateAsc_gap (ms : List Meal) (prev : Option Nat) (i : Nat)
    (hi : i + 1 < ms.length) :
    (annotateAsc prev ms)[i + 1]? =
      some (ms[i + 1],
        some (format_timedelta ((ms[i + 1].timestamp : Int) - (ms[i].timestamp : Int)))) := by
  induction ms generalizing prev i with
  | nil => simp at hi
  | cons m rest ih =>
    cases i with
    | zero =>
      cases rest with
      | nil => simp at hi
      | cons r rest2 => simp [annotateAsc]
    | succ j =>
      have hj : j + 1 < rest.length := by
        simpa using Nat.lt_of_succ_lt_succ hi
      have := ih (some m.timestamp) j hj
      simpa [annotateAsc] using this

/-! ## C1 and C8: the fasting annotation -/

/-- Claim C1: on any list of meal entries with strictly ascending timestamps
the index route's fasting view returns the same meals most recent first; at
the descending position of meal `i` with `i > 0` it carries the gap
`t_i - t_(i-1)` rendered by `format_timedelta` (days, then hours and
minutes, the sub-minute remainder floored away), and the chronologically
earliest meal carries no duration. -/
theorem c1_fasting_view_descending_durations (ms : List Meal)
    (hasc : List.Chain' (fun a b => a.timestamp < b.timestamp) ms) :
    (meals_view ms).map Prod.fst = (ms.map convertMeal).reverse ∧
    (∀ h0 : 0 < ms.length,
      (meals_view ms)[ms.length - 1]? = some (convertMeal ms[0], none)) ∧
    (∀ (i : Nat) (hi : i + 1 < ms.length),
      (meals_view ms)[ms.length - 2 - i]? =
        some (convertMeal ms[i + 1],
          some (format_timedelta
            ((ms[i + 1].timestamp : Int) - (ms[i].timestamp : Int))))) := by
  refine ⟨?_, ?_, ?_⟩
  · unfold meals_view meals_with_fasting_time
    rw [List.map_reverse, annotateAsc_map_fst]
  · intro h0
    unfold meals_view meals_with_fasting_time
    rw [List.getElem?_reverse (by simp [annotateAsc_length]; omega)]
    have hidx : (annotateAsc none (ms.map convertMeal)).length - 1 - (ms.length - 1) = 0 := by
      simp [annotateAsc_length]
    rw [hidx]
    cases ms with
    | nil => simp at h0
    | cons m rest => simp [annotateAsc]
  · intro i hi
    have hmi : i + 1 < (ms.map convertMeal).length := by simpa using hi
    unfold meals_view meals_with_fasting_time
    rw [List.getElem?_reverse (by simp [annotateAsc_length]; omega)]
    have hidx : (annotateAsc none (ms.map convertMeal)).length - 1 - (ms.length - 2 - i)
        = i + 1 := by
      simp [annotateAsc_length]; omega
    rw [hidx]
    rw [annotateAsc_gap (ms.map convertMeal) none i hmi]
    have h1 : (ms.map convertMeal)[i + 1] = convertMeal ms[i + 1] := by simp
    have h2 : (ms.map convertMeal)[i] = convertMeal ms[i] := by simp
    rw [h1, h2]
    have harg : ((convertMeal ms[i + 1]).timestamp : Int)
        - ((convertMeal ms[i]).timestamp : Int)
        = (ms[i + 1].timestamp : Int) - (ms[i].timestamp : Int) := by
      simp only [convertMeal]
      push_cast
      ring
    rw [harg]

/-- Witness for C1 at the three concrete demonstration meals. -/
theorem c1_witness :
    (meals_view demoMeals).map Prod.fst = (demoMeals.map convertMeal).reverse :=
  (c1_fasting_view_descending_durations demoMeals
    (by norm_num [demoMeals, demoMealA, demoMealB, demoMealC,
      List.chain'_cons, List.chain'_singleton])).1

/-! ## Helper lemmas about the daily summary accumulator -/

theorem bump_map_fst (acc : List (Option String × Int)) (k : Option String) (v : Int) :
    (bump acc k v).map Prod.fst =
      if k ∈ acc.map Prod.fst then acc.map Prod.fst else acc.map Prod.fst ++ [k] := by
  induction acc with
  | nil => simp [bump]
  | cons p rest ih =>
    obtain ⟨k0, v0⟩ := p
    by_cases h : k0 = k
    · simp [bump, h]
    · have h2 : ¬ k = k0 := fun hh => h hh.symm
      simp [bump, h, ih]
      by_cases hm : k ∈ rest.map Prod.fst <;> simp [hm, h2, List.mem_cons]

theorem bump_map_snd_sum (acc : List (Option String × Int)) (k : Option String) (v : Int) :
    ((bump acc k v).map Prod.snd).sum = (acc.map Prod.snd).sum + v := by
  induction acc with
  | nil => simp [bump]
  | cons p rest ih =>
    obtain ⟨k0, v0⟩ := p
    by_cases h : k0 = k
    · simp [bump, h]
      ring
    · simp [bump, h, ih]
      ring

theorem lookupKey_nil (k2 : Option String) : lookupKey [] k2 = none := rfl

theorem lookupKey_cons (k0 : Option String) (v0 : Int)
    (rest : List (Option String × Int)) (k2 : Option String) :
    lookupKey ((k0, v0) :: rest) k2 = if k0 = k2 then some v0 else lookupKey rest k2 := by
  by_cases h : k0 = k2
  · simp [lookupKey, List.find?_cons, h]
  · simp [lookupKey, List.find?_cons, h]

theorem lookupKey_bump (acc : List (Option String × Int)) (k k2 : Option String) (v : Int) :
    lookupKey (bump acc k v) k2 =
      if k2 = k then some ((lookupKey acc k).getD 0 + v) else lookupKey acc k2 := by
  induction acc with
  | nil =>
    by_cases h : k2 = k
    · simp [bump, h, lookupKey_cons, lookupKey_nil]
    · have h2 : ¬ k = k2 := fun hh => h hh.symm
      simp [bump, h, h2, lookupKey_cons, lookupKey_nil]
  | cons p rest ih =>
    obtain ⟨k0, v0⟩ := p
    by_cases h : k0 = k
    · subst h
      have hb : bump ((k0, v0) :: rest) k0 v = (k0, v0 + v) :: rest := by simp [bump]
      rw [hb]
      by_cases h2 : k0 = k2
      · subst h2
        simp [lookupKey_cons]
      · have h3 : ¬ k2 = k0 := fun hh => h2 hh.symm
        simp [lookupKey_cons, h2, h3]
    · have hb : bump ((k0, v0) :: rest) k v = (k0, v0) :: bump rest k v := by simp [bump, h]
      rw [hb, lookupKey_cons, ih]
      by_cases h2 : k0 = k2
      · subst h2
        simp [h, lookupKey_cons]
      · by_cases h4 : k2 = k
        · subst h4
          simp [h2, h, lookupKey_cons]
        · simp [h2, h4, lookupKey_cons]

theorem totalFor_cons (w : Workout) (ws : List Workout) (k : Option String) :
    totalFor (w :: ws) k =
      (if w.exercise_name = k then w.reps else 0) + totalFor ws k := by
  by_cases h : w.exercise_name = k
  · simp [totalFor, List.filter_cons, h]
  · simp [totalFor, List.filter_cons, h]

theorem lookupKey_foldl (ws : List Workout) (acc : List (Option String × Int))
    (k : Option String) :
    lookupKey (ws.foldl (fun a w => bump a w.exercise_name w.reps) acc) k =
      match lookupKey acc k with
      | some x => some (x + totalFor ws k)
      | none =>
        if k ∈ ws.map (fun w => w.exercise_name) then some (totalFor ws k) else none := by
  induction ws generalizing acc with
  | nil =>
    cases h : lookupKey acc k with
    | none => simp [totalFor, h]
    | some x => simp [totalFor, h]
  | cons w ws ih =>
    rw [List.foldl_cons, ih]
    rw [lookupKey_bump]
    by_cases h : k = w.exercise_name
    · have hpred : w.exercise_name = k := h.symm
      rw [if_pos h, totalFor_cons, if_pos hpred]
      cases hl : lookupKey acc k with
      | none => simp [hpred, hl]
      | some x => simp [hpred, hl]; ring
    · have hpred : ¬ w.exercise_name = k := fun hh => h hh.symm
      rw [if_neg h, totalFor_cons, if_neg hpred]
      cases hl : lookupKey acc k with
      | none => simp [h, hpred]
      | some x => simp

theorem lookupKey_workout_summary (ws : List Workout) (k : Option String) :
    lookupKey (workout_summary ws) k =
      if k ∈ ws.map (fun w => w.exercise_name) then some (totalFor ws k) else none := by
  have h := lookupKey_foldl ws [] k
  simpa [workout_summary, lookupKey] using h

theorem foldl_keys_nodup (ws : List Workout) (acc : List (Option String × Int))
    (hacc : (acc.map Prod.fst).Nodup) :
    (((ws.foldl (fun a w => bump a w.exercise_name w.reps) acc)).map Prod.fst).Nodup := by
  induction ws generalizing acc with
  | nil => simpa using hacc
  | cons w ws ih =>
    rw [List.foldl_cons]
    refine ih _ ?_
    rw [bump_map_fst]
    by_cases h : w.exercise_name ∈ acc.map Prod.fst
    · simpa [h] using hacc
    · rw [if_neg h]
      rw [List.nodup_append]
      refine ⟨hacc, List.nodup_singleton _, ?_⟩
      intro a ha hmem
      rw [List.mem_singleton] at hmem
      exact h (hmem ▸ ha)

theorem workout_summary_keys_nodup (ws : List Workout) :
    ((workout_summary ws).map Prod.fst).Nodup :=
  foldl_keys_nodup ws [] (by simp)

theorem lookupKey_of_mem_nodup (l : List (Option String × Int)) (k : Option String) (x : Int)
    (hnd : (l.map Prod.fst).Nodup) (hmem : (k, x) ∈ l) :
    lookupKey l k = some x := by
  induction l with
  | nil => simp at hmem
  | cons p rest ih =>
    obtain ⟨k0, v0⟩ := p
    rcases List.mem_cons.mp hmem with heq | hrest
    · obtain ⟨h1, h2⟩ := Prod.mk.injEq .. ▸ heq
      subst h1; subst h2
      simp [lookupKey]
    · by_cases h : k0 = k
      · exfalso
        have : k ∈ rest.map Prod.fst := List.mem_map.mpr ⟨(k, x), hrest, rfl⟩
        rw [List.map_cons] at hnd
        exact (List.nodup_cons.mp hnd).1 (h ▸ this)
      · have h3 : ¬ k0 = k := h
        have := ih (by simpa using (List.nodup_cons.mp (by simpa using hnd)).2) hrest
        simpa [lookupKey, h3] using this

theorem workout_summary_values (ws : List Workout) :
    ∀ p ∈ workout_summary ws, p.2 = totalFor ws p.1 := by
  intro p hp
  have h1 : lookupKey (workout_summary ws) p.1 = some p.2 :=
    lookupKey_of_mem_nodup _ _ _ (workout_summary_keys_nodup ws) (by simpa using hp)
  rw [lookupKey_workout_summary] at h1
  by_cases h : p.1 ∈ ws.map (fun w => w.exercise_name)
  · rw [if_pos h] at h1
    exact (Option.some.injEq .. ▸ h1).symm
  · rw [if_neg h] at h1
    simp at h1

theorem foldl_snd_sum (ws : List Workout) (acc : List (Option String × Int)) :
    (((ws.foldl (fun a w => bump a w.exercise_name w.reps) acc)).map Prod.snd).sum =
      (acc.map Prod.snd).sum + (ws.map (fun w => w.reps)).sum := by
  induction ws generalizing acc with
  | nil => simp
  | cons w ws ih =>
    rw [List.foldl_cons, ih, bump_map_snd_sum]
    simp
    ring

theorem workout_summary_sum (ws : List Workout) :
    ((workout_summary ws).map Prod.snd).sum = (ws.map (fun w => w.reps)).sum := by
  have h := foldl_snd_sum ws []
  simpa [workout_summary] using h

theorem foldl_keys_firstOcc (ws : List Workout) (acc : List (Option String × Int)) :
    ((ws.foldl (fun a w => bump a w.exercise_name w.reps) acc)).map Prod.fst =
      (ws.map (fun w => w.exercise_name)).foldl
        (fun a n => if n ∈ a then a else a ++ [n]) (acc.map Prod.fst) := by
  induction ws generalizing acc with
  | nil => simp
  | cons w ws ih =>
    rw [List.foldl_cons, ih, bump_map_fst, List.map_cons, List.foldl_cons]

theorem chart_labels_firstOcc (ws : List Workout) :
    chart_labels ws = firstOccurrences (ws.map (fun w => w.exercise_name)) := by
  have h := foldl_keys_firstOcc ws []
  simpa [chart_labels, workout_summary, firstOccurrences] using h

theorem lexLe_total (a b : List Char) : lexLe a b = true ∨ lexLe b a = true := by
  induction a generalizing b with
  | nil => left; simp [lexLe]
  | cons x as ih =>
    cases b with
    | nil => right; simp [lexLe]
    | cons y bs =>
      rcases Nat.lt_trichotomy x.toNat y.toNat with h | h | h
      · left; simp [lexLe, h]
      · rcases ih bs with h2 | h2
        · left; simp [lexLe, h, h2]
        · right; simp [lexLe, h.symm, h2]
      · right; simp [lexLe, h]

theorem lexLe_trans (a b c : List Char) (h1 : lexLe a b = true) (h2 : lexLe b c = true) :
    lexLe a c = true := by
  induction a generalizing b c with
  | nil => simp [lexLe]
  | cons x as ih =>
    cases b with
    | nil => simp [lexLe] at h1
    | cons y bs =>
      cases c with
      | nil => simp [lexLe] at h2
      | cons z cs =>
        simp only [lexLe, Bool.or_eq_true, Bool.and_eq_true, beq_iff_eq,
          decide_eq_true_eq] at h1 h2 ⊢
        rcases h1 with h1 | ⟨h1e, h1t⟩
        · rcases h2 with h2 | ⟨h2e, h2t⟩
          · exact Or.inl (Nat.lt_trans h1 h2)
          · exact Or.inl (h2e ▸ h1)
        · rcases h2 with h2 | ⟨h2e, h2t⟩
          · exact Or.inl (h1e ▸ h2)
          · exact Or.inr ⟨h1e.trans h2e, ih bs cs h1t h2t⟩

theorem summLe_total (p q : Option String × Int) : summLe p q ∨ summLe q p := by
  obtain ⟨a, x⟩ := p
  obtain ⟨b, y⟩ := q
  cases a with
  | none => left; simp [summLe, optStrLe]
  | some s =>
    cases b with
    | none => right; simp [summLe, optStrLe]
    | some t =>
      rcases lexLe_total s.data t.data with h | h
      · left; simpa [summLe, optStrLe, strLe] using h
      · right; simpa [summLe, optStrLe, strLe] using h

theorem summLe_trans (p q r : Option String × Int)
    (h1 : summLe p q) (h2 : summLe q r) : summLe p r := by
  obtain ⟨a, x⟩ := p
  obtain ⟨b, y⟩ := q
  obtain ⟨c, z⟩ := r
  cases a with
  | none => simp [summLe, optStrLe]
  | some s =>
    cases b with
    | none => simp [summLe, optStrLe] at h1
    | some t =>
      cases c with
      | none => simp [summLe, optStrLe] at h2
      | some u =>
        simp [summLe, optStrLe, strLe] at h1 h2 ⊢
        exact lexLe_trans s.data t.data u.data h1 h2

/-! ## C2: the daily rep summary and chart arrays -/

/-- Claim C2: over any list of today's workout entries (in the order the
index route scans them), the sorted table's totals sum to the sum of all
reps; the table is ordered by exercise name; the chart labels are the
distinct exercise names in first-occurrence order with `values[i]` the
final total of `labels[i]`; and table and chart enumerate the same
exercises. -/
theorem c2_daily_summary (ws : List Workout) :
    ((sorted_workout_summary ws).map Prod.snd).sum = (ws.map (fun w => w.reps)).sum ∧
    List.Sorted summLe (sorted_workout_summary ws) ∧
    chart_labels ws = firstOccurrences (ws.map (fun w => w.exercise_name)) ∧
    (∀ (i : Nat) (k : Option String), (chart_labels ws)[i]? = some k →
      (chart_data ws)[i]? = some (totalFor ws k)) ∧
    (∀ k : Option String,
      k ∈ (sorted_workout_summary ws).map Prod.fst ↔ k ∈ chart_labels ws) := by
  have hperm : (sorted_workout_summary ws).Perm (workout_summary ws) :=
    List.perm_insertionSort summLe (workout_summary ws)
  refine ⟨?_, ?_, chart_labels_firstOcc ws, ?_, ?_⟩
  · have h1 : ((sorted_workout_summary ws).map Prod.snd).Perm
        ((workout_summary ws).map Prod.snd) := hperm.map _
    rw [h1.sum_eq, workout_summary_sum]
  · exact @List.sorted_insertionSort _ summLe _ ⟨summLe_total⟩ ⟨summLe_trans⟩
      (workout_summary ws)
  · intro i k hik
    have hlab : chart_labels ws = (workout_summary ws).map Prod.fst := rfl
    rw [hlab, List.getElem?_map] at hik
    cases hsum : (workout_summary ws)[i]? with
    | none => rw [hsum] at hik; simp at hik
    | some p =>
      rw [hsum] at hik
      simp at hik
      have hp : p ∈ workout_summary ws := List.getElem?_mem hsum
      have hv := workout_summary_values ws p hp
      have hdat : chart_data ws = (workout_summary ws).map Prod.snd := rfl
      rw [hdat, List.getElem?_map, hsum]
      simp [hv, hik]
  · intro k
    have hmap : ((sorted_workout_summary ws).map Prod.fst).Perm (chart_labels ws) := by
      have hlab : chart_labels ws = (workout_summary ws).map Prod.fst := rfl
      rw [hlab]
      exact hperm.map _
    exact hmap.mem_iff

/-- Witness for C2: the chart value paired with the label "Squat" on the
worked example is the Squat total 74. -/
theorem c2_witness :
    (chart_data demoWorkouts)[0]? = some (totalFor demoWorkouts (some "Squat")) :=
  (c2_daily_summary demoWorkouts).2.2.2.1 0 (some "Squat") (by decide)

/-! ## C3: the today filter -/

/-- Counterexample to C3 as stated: at UTC instant 79200 (21:00 of epoch
day 0) the entry logged at 73800 has Yerevan-local date 1, equal to the
current Yerevan-local date, yet on a server whose system zone is UTC
(`date.today()` offset 0) the filter drops it, because the code compares
the Yerevan-converted entry date against the server-system current date. -/
theorem c3_counterexample :
    date_of (demoFilterW.timestamp + YEREVAN_OFFSET) = date_today 79200 YEREVAN_OFFSET ∧
    todays_workouts [demoFilterW] (date_today 79200 0) = [] := by
  constructor
  · decide
  · decide

/-- Claim C3 as amended: whenever the server-system current date agrees with
the configured zone's current date (in particular when the server runs in
the configured zone), the summary's input contains exactly the entries
whose Yerevan-local calendar date equals the current Yerevan-local date. -/
theorem c3_local_date_filter (ws : List Workout) (now soff : Nat)
    (hsync : date_today now soff = date_today now YEREVAN_OFFSET) :
    (∀ w ∈ ws,
      (convertWorkout w ∈ todays_workouts ws (date_today now soff) ↔
        date_of (w.timestamp + YEREVAN_OFFSET) = date_today now YEREVAN_OFFSET)) ∧
    (∀ v ∈ todays_workouts ws (date_today now soff),
      ∃ w ∈ ws, v = convertWorkout w ∧
        date_of (w.timestamp + YEREVAN_OFFSET) = date_today now YEREVAN_OFFSET) := by
  constructor
  · intro w hw
    constructor
    · intro hmem
      simp only [todays_workouts] at hmem
      have hpred := (List.mem_filter.mp hmem).2
      simp only [convertWorkout, beq_iff_eq] at hpred
      rw [hsync] at hpred
      simpa [date_of] using hpred
    · intro hdate
      simp only [todays_workouts]
      apply List.mem_filter.mpr
      refine ⟨List.mem_map.mpr ⟨w, hw, rfl⟩, ?_⟩
      simp only [convertWorkout, beq_iff_eq]
      rw [hsync]
      simpa [date_of] using hdate
  · intro v hv
    simp only [todays_workouts] at hv
    obtain ⟨hvm, hpred⟩ := List.mem_filter.mp hv
    obtain ⟨w, hw, hconv⟩ := List.mem_map.mp hvm
    refine ⟨w, hw, hconv.symm, ?_⟩
    rw [← hconv] at hpred
    simp only [convertWorkout, beq_iff_eq] at hpred
    rw [hsync] at hpred
    simpa [date_of] using hpred

/-- Witness for C3 (amended) with the server running in the configured
zone. -/
theorem c3_witness :
    convertWorkout demoFilterW ∈
        todays_workouts [demoFilterW] (date_today 79200 YEREVAN_OFFSET) ↔
      date_of (demoFilterW.timestamp + YEREVAN_OFFSET) = date_today 79200 YEREVAN_OFFSET :=
  (c3_local_date_filter [demoFilterW] 79200 YEREVAN_OFFSET rfl).1 demoFilterW
    (List.mem_singleton.mpr rfl)

/-- Claim C8: an empty or one-element meal list yields respectively an empty
fasting view or a single entry with no duration; the pipeline is a total
function, so neither case can raise. -/
theorem c8_fasting_view_small_lists :
    meals_view [] = [] ∧
    ∀ m : Meal, meals_view [m] = [(convertMeal m, none)] := by
  refine ⟨rfl, ?_⟩
  intro m
  simp [meals_view, meals_with_fasting_time, annotateAsc]

/-- Witness for C8 at a concrete one-meal list. -/
theorem c8_witness : meals_view [demoMealA] = [(convertMeal demoMealA, none)] :=
  c8_fasting_view_small_lists.2 demoMealA

/-! ## Helper lemmas about the CRUD handlers -/

theorem pyInt_nonneg (s : String) : 0 ≤ pyInt s := Int.natCast_nonneg _

theorem parseCalories_nonneg (cs : Option String) (c : Int)
    (h : parseCalories cs = some c) : 0 ≤ c := by
  cases cs with
  | none => simp [parseCalories] at h
  | some s =>
    by_cases hd : pyIsdigit s = true
    · simp [parseCalories, hd, pyInt] at h
      rw [← h]
      exact Int.natCast_nonneg _
    · simp [parseCalories, hd] at h

theorem applyWorkoutForm_reps_nonneg (f : WorkoutForm) (w : Workout)
    (h : 0 ≤ w.reps) : 0 ≤ (applyWorkoutForm f w).reps := by
  unfold applyWorkoutForm
  cases f.reps with
  | none => simpa using h
  | some s =>
    by_cases hd : pyIsdigit s = true
    · simp [hd, pyInt_nonneg]
    · simpa [hd] using h

theorem applyWorkoutForm_id (f : WorkoutForm) (w : Workout) :
    (applyWorkoutForm f w).id = w.id := by
  unfold applyWorkoutForm
  cases f.reps with
  | none => rfl
  | some s =>
    by_cases hd : pyIsdigit s = true
    · simp [hd]
    · simp [hd]

theorem applyWorkoutForm_timestamp (f : WorkoutForm) (w : Workout) :
    (applyWorkoutForm f w).timestamp = w.timestamp := by
  unfold applyWorkoutForm
  cases f.reps with
  | none => rfl
  | some s =>
    by_cases hd : pyIsdigit s = true
    · simp [hd]
    · simp [hd]

theorem add_workout_nonneg (f : WorkoutForm) (now : Nat) (st : Store)
    (h : StoreNonneg st) : StoreNonneg (add_workout f now st).store := by
  obtain ⟨hw, hm⟩ := h
  cases hfr : f.reps with
  | none => simp only [add_workout, hfr]; exact ⟨hw, hm⟩
  | some s =>
    by_cases hg : (pyTruthy f.exercise_name && pyIsdigit s) = true
    · simp only [add_workout, hfr, if_pos hg]
      refine ⟨?_, ?_⟩
      · intro w hwm
        simp only [List.mem_append, List.mem_singleton] at hwm
        rcases hwm with hold | hnew
        · exact hw w hold
        · rw [hnew]
          exact pyInt_nonneg s
      · intro m hmm c hc
        exact hm m hmm c hc
    · simp only [add_workout, hfr, if_neg hg]
      exact ⟨hw, hm⟩

theorem update_workout_nonneg (wid : Nat) (f : WorkoutForm) (st : Store)
    (h : StoreNonneg st) : StoreNonneg (update_workout wid f st).store := by
  obtain ⟨hw, hm⟩ := h
  unfold update_workout
  cases hg : getWorkout st wid with
  | none => exact ⟨hw, hm⟩
  | some w0 =>
    refine ⟨?_, ?_⟩
    · intro w hwm
      simp only [List.mem_map] at hwm
      obtain ⟨w1, hmem, heq⟩ := hwm
      by_cases hid : (w1.id == wid) = true
      · rw [if_pos hid] at heq
        rw [← heq]
        exact applyWorkoutForm_reps_nonneg f w1 (hw w1 hmem)
      · rw [if_neg hid] at heq
        rw [← heq]
        exact hw w1 hmem
    · intro m hmm c hc
      exact hm m hmm c hc

theorem delete_workout_nonneg (wid : Nat) (st : Store)
    (h : StoreNonneg st) : StoreNonneg (delete_workout wid st).store := by
  obtain ⟨hw, hm⟩ := h
  unfold delete_workout
  cases hg : getWorkout st wid with
  | none => exact ⟨hw, hm⟩
  | some w0 =>
    refine ⟨?_, ?_⟩
    · intro w hwm
      exact hw w (List.mem_filter.mp hwm).1
    · intro m hmm c hc
      exact hm m hmm c hc

theorem add_meal_nonneg (g : MealForm) (now : Nat) (st : Store)
    (h : StoreNonneg st) : StoreNonneg (add_meal g now st).store := by
  obtain ⟨hw, hm⟩ := h
  unfold add_meal
  by_cases hg : pyTruthy g.meal_name = true
  · rw [if_pos hg]
    refine ⟨fun w hwm => hw w hwm, ?_⟩
    intro m hmm c hc
    simp only [List.mem_append, List.mem_singleton] at hmm
    rcases hmm with hold | hnew
    · exact hm m hold c hc
    · rw [hnew] at hc
      exact parseCalories_nonneg g.calories c hc
  · rw [if_neg hg]
    exact ⟨hw, hm⟩

theorem update_meal_nonneg (mid : Nat) (g : MealForm) (st : Store)
    (h : StoreNonneg st) : StoreNonneg (update_meal mid g st).store := by
  obtain ⟨hw, hm⟩ := h
  unfold update_meal
  cases hg : getMeal st mid with
  | none => exact ⟨hw, hm⟩
  | some m0 =>
    refine ⟨fun w hwm => hw w hwm, ?_⟩
    intro m hmm c hc
    simp only [List.mem_map] at hmm
    obtain ⟨m1, hmem, heq⟩ := hmm
    by_cases hid : (m1.id == mid) = true
    · rw [if_pos hid] at heq
      rw [← heq] at hc
      simp only [applyMealForm] at hc
      exact parseCalories_nonneg g.calories c hc
    · rw [if_neg hid] at heq
      rw [← heq] at hc
      exact hm m1 hmem c hc

theorem delete_meal_nonneg (mid : Nat) (st : Store)
    (h : StoreNonneg st) : StoreNonneg (delete_meal mid st).store := by
  obtain ⟨hw, hm⟩ := h
  unfold delete_meal
  cases hg : getMeal st mid with
  | none => exact ⟨hw, hm⟩
  | some m0 =>
    refine ⟨fun w hwm => hw w hwm, ?_⟩
    intro m hmm c hc
    exact hm m (List.mem_filter.mp hmm).1 c hc

theorem storeNonneg_applyOp (st : Store) (op : Op)
    (h : StoreNonneg st) : StoreNonneg (applyOp st op) := by
  cases op with
  | addW f now => exact add_workout_nonneg f now st h
  | updW wid f => exact update_workout_nonneg wid f st h
  | delW wid => exact delete_workout_nonneg wid st h
  | addM g now => exact add_meal_nonneg g now st h
  | updM mid g => exact update_meal_nonneg mid g st h
  | delM mid => exact delete_meal_nonneg mid st h

theorem storeNonneg_runOps (ops : List Op) (st : Store)
    (h : StoreNonneg st) : StoreNonneg (runOps st ops) := by
  induction ops generalizing st with
  | nil => exact h
  | cons op ops ih => exact ih _ (storeNonneg_applyOp st op h)

theorem find?_map_update_workout (l : List Workout) (wid : Nat) (w0 : Workout)
    (g : Workout → Workout) (hid : ∀ w, (g w).id = w.id)
    (hfind : l.find? (fun w => w.id == wid) = some w0) :
    (l.map (fun w => if w.id == wid then g w else w)).find? (fun w => w.id == wid)
      = some (g w0) := by
  induction l with
  | nil => simp at hfind
  | cons w l ih =>
    by_cases h : (w.id == wid) = true
    · rw [List.find?_cons] at hfind
      simp only [h] at hfind
      have hw0 : w = w0 := by simpa using hfind
      subst hw0
      simp only [List.map_cons, List.find?_cons, if_pos h]
      have hb : ((g w).id == wid) = true := by rw [hid w]; exact h
      simp only [hb]
    · rw [List.find?_cons] at hfind
      simp only [h] at hfind
      have hfind2 : l.find? (fun w => w.id == wid) = some w0 := by
        simpa [h] using hfind
      simp only [List.map_cons, List.find?_cons, if_neg h]
      have hb : (w.id == wid) = false := by simpa using h
      simp only [hb]
      exact ih hfind2

theorem find?_map_update_meal (l : List Meal) (mid : Nat) (m0 : Meal)
    (g : Meal → Meal) (hid : ∀ m, (g m).id = m.id)
    (hfind : l.find? (fun m => m.id == mid) = some m0) :
    (l.map (fun m => if m.id == mid then g m else m)).find? (fun m => m.id == mid)
      = some (g m0) := by
  induction l with
  | nil => simp at hfind
  | cons m l ih =>
    by_cases h : (m.id == mid) = true
    · rw [List.find?_cons] at hfind
      simp only [h] at hfind
      have hm0 : m = m0 := by simpa using hfind
      subst hm0
      simp only [List.map_cons, List.find?_cons, if_pos h]
      have hb : ((g m).id == mid) = true := by rw [hid m]; exact h
      simp only [hb]
    · rw [List.find?_cons] at hfind
      simp only [h] at hfind
      have hfind2 : l.find? (fun m => m.id == mid) = some m0 := by
        simpa [h] using hfind
      simp only [List.map_cons, List.find?_cons, if_neg h]
      have hb : (m.id == mid) = false := by simpa using h
      simp only [hb]
      exact ih hfind2

theorem applyMealForm_id (g : MealForm) (m : Meal) : (applyMealForm g m).id = m.id := rfl

theorem getWorkout_add_new (st : Store) (f : WorkoutForm) (now : Nat) (s : String)
    (hb : ∀ w ∈ st.workouts, w.id < st.nextWorkoutId)
    (hname : pyTruthy f.exercise_name = true)
    (hreps : f.reps = some s) (hdig : pyIsdigit s = true) :
    getWorkout (add_workout f now st).store st.nextWorkoutId =
      some ⟨st.nextWorkoutId, f.exercise_name, pyInt s, now⟩ := by
  have hg : (pyTruthy f.exercise_name && pyIsdigit s) = true := by
    rw [hname, hdig]
    rfl
  simp only [add_workout, hreps, hg, if_true]
  unfold getWorkout
  rw [List.find?_append]
  have hnone : st.workouts.find? (fun w => w.id == st.nextWorkoutId) = none := by
    rw [List.find?_eq_none]
    intro w hwm
    simp only [beq_iff_eq]
    exact fun hcontra => absurd hcontra (Nat.ne_of_lt (hb w hwm))
  rw [hnone]
  simp [List.find?_cons]

theorem getMeal_add_new (st : Store) (g : MealForm) (now : Nat)
    (hb : ∀ m ∈ st.meals, m.id < st.nextMealId)
    (hname : pyTruthy g.meal_name = true) :
    getMeal (add_meal g now st).store st.nextMealId =
      some ⟨st.nextMealId, g.meal_name, g.component1, g.component2, g.component3,
            g.component4, g.component5, parseCalories g.calories, now⟩ := by
  simp only [add_meal, hname, if_true]
  unfold getMeal
  rw [List.find?_append]
  have hnone : st.meals.find? (fun m => m.id == st.nextMealId) = none := by
    rw [List.find?_eq_none]
    intro m hmm
    simp only [beq_iff_eq]
    exact fun hcontra => absurd hcontra (Nat.ne_of_lt (hb m hmm))
  rw [hnone]
  simp [List.find?_cons]

/-! ## C4: the stored-entry invariants -/

/-- Counterexample to C4 as stated: the add handler accepts `reps = "0"`
(`"0".isdigit()` holds), storing a workout with `reps = 0`, which violates
the claimed invariant `reps > 0`; and the update handler overwrites the
exercise name with the raw submitted value, storing an empty name. -/
theorem c4_counterexample :
    (runOps emptyStore [Op.addW ⟨some "Squat", some "0"⟩ 0]).workouts
        = [⟨1, some "Squat", 0, 0⟩] ∧
    ¬ (0 < (Workout.mk 1 (some "Squat") 0 0).reps) ∧
    (runOps demoStore [Op.updW 1 ⟨some "", some ""⟩]).workouts
        = [⟨1, some "", 10, 5⟩] := by
  refine ⟨?_, ?_, ?_⟩ <;> decide

/-- Claim C4 as amended: after any sequence of add, update and delete
operations from the empty store, every stored workout's reps is
non-negative (it was parsed from a digit string) and every stored meal's
calories, when present, is non-negative; the stricter `reps > 0` and
name-non-emptiness claims do not survive `"0"` reps and raw-name
updates. -/
theorem c4_numeric_invariants (ops : List Op) :
    (∀ w ∈ (runOps emptyStore ops).workouts, 0 ≤ w.reps) ∧
    (∀ m ∈ (runOps emptyStore ops).meals, ∀ c, m.calories = some c → 0 ≤ c) :=
  storeNonneg_runOps ops emptyStore ⟨by simp [emptyStore], by simp [emptyStore]⟩

/-- Witness for C4 (amended) at a concrete one-request history. -/
theorem c4_witness : 0 ≤ (Workout.mk 1 (some "Squat") 3 0).reps :=
  (c4_numeric_invariants [Op.addW ⟨some "Squat", some "3"⟩ 0]).1
    ⟨1, some "Squat", 3, 0⟩ (by decide)

/-! ## C5: non-numeric reps on add -/

/-- Counterexample to C5 as stated: a non-numeric reps string does not
raise an uncaught conversion error — the guard rejects it before `int()`
runs, the handler returns normally and the store is unchanged. -/
theorem c5_counterexample :
    add_workoutE ⟨some "Squat", some "12x"⟩ 0 emptyStore =
      Except.ok ⟨emptyStore, false, Resp.redirectIndex⟩ := rfl

/-- Claim C5 as amended: a workout add request whose reps value is a
non-digit string is silently dropped: no conversion is attempted, no error
escapes, no entry is stored (neither defaulted nor accepted), and the
handler redirects to the index. -/
theorem c5_nonnumeric_ignored (f : WorkoutForm) (now : Nat) (st : Store) (s : String)
    (hs : f.reps = some s) (hnd : pyIsdigit s = false) :
    add_workoutE f now st = Except.ok ⟨st, false, Resp.redirectIndex⟩ := by
  simp only [add_workoutE, hs]
  simp [hnd]

/-- Witness for C5 (amended). -/
theorem c5_witness :
    add_workoutE ⟨some "Squat", some "12x"⟩ 5 emptyStore =
      Except.ok ⟨emptyStore, false, Resp.redirectIndex⟩ :=
  c5_nonnumeric_ignored ⟨some "Squat", some "12x"⟩ 5 emptyStore "12x" rfl (by decide)

/-! ## C6: unknown ids are no-ops -/

/-- Claim C6: for an id absent from the store, delete, update and edit (for
workouts and meals alike) leave the store untouched, raise nothing, redirect
to the index, and preserve the row counts. -/
theorem c6_unknown_id_noop (wid mid : Nat) (f : WorkoutForm) (g : MealForm) (st : Store)
    (hw : getWorkout st wid = none) (hm : getMeal st mid = none) :
    delete_workout wid st = ⟨st, false, Resp.redirectIndex⟩ ∧
    delete_meal mid st = ⟨st, false, Resp.redirectIndex⟩ ∧
    update_workout wid f st = ⟨st, false, Resp.redirectIndex⟩ ∧
    update_meal mid g st = ⟨st, false, Resp.redirectIndex⟩ ∧
    edit_workout wid st = ⟨st, false, Resp.redirectIndex⟩ ∧
    edit_meal mid st = ⟨st, false, Resp.redirectIndex⟩ ∧
    (delete_workout wid st).store.workouts.length = st.workouts.length ∧
    (delete_meal mid st).store.meals.length = st.meals.length := by
  have h1 : delete_workout wid st = ⟨st, false, Resp.redirectIndex⟩ := by
    simp [delete_workout, hw]
  have h2 : delete_meal mid st = ⟨st, false, Resp.redirectIndex⟩ := by
    simp [delete_meal, hm]
  refine ⟨h1, h2, ?_, ?_, ?_, ?_, by rw [h1], by rw [h2]⟩
  · simp [update_workout, hw]
  · simp [update_meal, hm]
  · simp [edit_workout, hw]
  · simp [edit_meal, hm]

/-- Witness for C6 at id 7 on the empty store. -/
theorem c6_witness :
    delete_workout 7 emptyStore = ⟨emptyStore, false, Resp.redirectIndex⟩ :=
  (c6_unknown_id_noop 7 9 ⟨none, none⟩ noMealForm emptyStore rfl rfl).1

/-! ## C7: create/read round trip -/

/-- Claim C7: a valid create request (workout or meal) followed by a lookup
of the assigned id reads back exactly the submitted field values, the only
server-chosen parts being the id and the timestamp. -/
theorem c7_roundtrip (st : Store) (f : WorkoutForm) (g : MealForm) (now : Nat) (s : String)
    (hbw : ∀ w ∈ st.workouts, w.id < st.nextWorkoutId)
    (hbm : ∀ m ∈ st.meals, m.id < st.nextMealId)
    (hname : pyTruthy f.exercise_name = true)
    (hreps : f.reps = some s) (hdig : pyIsdigit s = true)
    (hmname : pyTruthy g.meal_name = true) :
    getWorkout (add_workout f now st).store st.nextWorkoutId =
      some ⟨st.nextWorkoutId, f.exercise_name, pyInt s, now⟩ ∧
    getMeal (add_meal g now st).store st.nextMealId =
      some ⟨st.nextMealId, g.meal_name, g.component1, g.component2, g.component3,
            g.component4, g.component5, parseCalories g.calories, now⟩ :=
  ⟨getWorkout_add_new st f now s hbw hname hreps hdig,
   getMeal_add_new st g now hbm hmname⟩

/-- Witness for C7: add a Squat workout to the empty store and read it
back. -/
theorem c7_witness :
    getWorkout (add_workout ⟨some "Squat", some "10"⟩ 3 emptyStore).store
        emptyStore.nextWorkoutId =
      some ⟨emptyStore.nextWorkoutId, some "Squat", pyInt "10", 3⟩ :=
  (c7_roundtrip emptyStore ⟨some "Squat", some "10"⟩ demoMealForm 3 "10"
    (by simp [emptyStore]) (by simp [emptyStore]) (by decide) rfl (by decide)
    (by decide)).1

/-! ## C9: the calories parsing policy -/

/-- Claim C9: on a meal add or update, the stored calories value is the
submitted (non-negative) integer exactly when the submitted string is
non-empty and all digits; when the field is absent or not a digit string,
the stored value is absent. -/
theorem c9_calories_policy (st : Store) (g : MealForm) (now mid : Nat) (m0 : Meal)
    (hname : pyTruthy g.meal_name = true)
    (hbm : ∀ m ∈ st.meals, m.id < st.nextMealId)
    (hex : getMeal st mid = some m0) :
    (∀ s, g.calories = some s → pyIsdigit s = true →
      (getMeal (add_meal g now st).store st.nextMealId).map Meal.calories
          = some (some ((strToNat s : Int))) ∧
      (getMeal (update_meal mid g st).store mid).map Meal.calories
          = some (some ((strToNat s : Int))) ∧
      (0 : Int) ≤ ((strToNat s : Int))) ∧
    ((g.calories = none ∨ ∃ s, g.calories = some s ∧ pyIsdigit s = false) →
      (getMeal (add_meal g now st).store st.nextMealId).map Meal.calories = some none ∧
      (getMeal (update_meal mid g st).store mid).map Meal.calories = some none) := by
  have hadd := getMeal_add_new st g now hbm hname
  have hupd : getMeal (update_meal mid g st).store mid = some (applyMealForm g m0) := by
    unfold update_meal
    rw [hex]
    unfold getMeal
    exact find?_map_update_meal st.meals mid m0 (applyMealForm g)
      (applyMealForm_id g) hex
  constructor
  · intro s hs hd
    refine ⟨?_, ?_, Int.natCast_nonneg _⟩
    · rw [hadd]
      simp [parseCalories, hs, hd, pyInt]
    · rw [hupd]
      simp [applyMealForm, parseCalories, hs, hd, pyInt]
  · intro hcase
    have hpc : parseCalories g.calories = none := by
      rcases hcase with hnone | ⟨s, hs, hd⟩
      · simp [parseCalories, hnone]
      · simp [parseCalories, hs, hd]
    constructor
    · rw [hadd]
      simp [hpc]
    · rw [hupd]
      simp [applyMealForm, hpc]

/-- Witness for C9: add a meal with calories "300" to the demo store and
read the stored calories back. -/
theorem c9_witness :
    (getMeal (add_meal demoMealForm 11 demoStore).store demoStore.nextMealId).map
        Meal.calories = some (some ((strToNat "300" : Int))) :=
  ((c9_calories_policy demoStore demoMealForm 11 1
      ⟨1, some "oats", none, none, none, none, none, some 300, 7⟩
      (by decide) (by decide) (by decide)).1 "300" rfl (by decide)).1

/-! ## C10: update semantics for workouts -/

/-- Claim C10: for an existing workout id, update always overwrites the
exercise name with the raw submitted value (also when absent or empty) and
commits with a redirect; reps changes only for a non-empty all-digits
submission and is kept otherwise; the id and the creation timestamp are
never modified. -/
theorem c10_update_overwrite (wid : Nat) (f : WorkoutForm) (st : Store) (w0 : Workout)
    (hex : getWorkout st wid = some w0) :
    (update_workout wid f st).committed = true ∧
    (update_workout wid f st).resp = Resp.redirectIndex ∧
    getWorkout (update_workout wid f st).store wid =
      some ⟨w0.id, f.exercise_name,
        (match f.reps with
          | some s => if pyIsdigit s then pyInt s else w0.reps
          | none => w0.reps), w0.timestamp⟩ := by
  have happly : applyWorkoutForm f w0 =
      ⟨w0.id, f.exercise_name,
        (match f.reps with
          | some s => if pyIsdigit s then pyInt s else w0.reps
          | none => w0.reps), w0.timestamp⟩ := by
    unfold applyWorkoutForm
    cases f.reps with
    | none => rfl
    | some s =>
      by_cases hd : pyIsdigit s = true
      · simp [hd]
      · simp [hd]
  refine ⟨?_, ?_, ?_⟩
  · simp [update_workout, hex]
  · simp [update_workout, hex]
  · unfold update_workout
    rw [hex]
    rw [← happly]
    unfold getWorkout
    exact find?_map_update_workout st.workouts wid w0 (applyWorkoutForm f)
      (applyWorkoutForm_id f) hex

/-- Witness for C10: update workout 1 of the demo store with an absent name
and non-numeric reps; the handler still commits. -/
theorem c10_witness :
    (update_workout 1 ⟨none, some "12x"⟩ demoStore).committed = true :=
  (c10_update_overwrite 1 ⟨none, some "12x"⟩ demoStore
    ⟨1, some "Squat", 10, 5⟩ (by decide)).1

end FitnessApp
